import Mathlib

/-!
# Verification of the async-listen backpressure and retry core

This file embeds the core of the `async-listen` crate in Lean:

* `error.rs` — the transient-error classifier `is_transient_error` and the
  `ErrorHint` lookup (`error_hint`, `hint_text`, `link_hash`, `is_empty`,
  `Display`);
* `backpressure.rs` — the shared counter state (`Inner`), token
  creation (`Sender::token`, `Receiver::token`), token release
  (`Token::drop`), limit changes (`Sender::set_limit`) and the capacity
  gate (`Receiver::poll` / `HasCapacity::poll`);
* `sleep.rs` — the `HandleErrors` retry adapter;
* `log.rs` — the `LogWarnings` logging combinator.

Machine integers (`usize`) are modelled as `Nat` reduced `% 2 ^ 64`
(the crate targets 64-bit platforms); `fetch_add`/`fetch_sub` wrap, as
the Rust atomics do.  Mutex `try_lock` contention is modelled by an
explicit boolean input (`lockBusy`): whether another party holds the
wait-slot lock at that instant.  Futures and streams are modelled at the
poll level: a source stream is a trace of poll results, a timer is an
oracle bit saying whether the deadline has elapsed at a given poll.
-/

namespace AsyncListen

/-! ## error.rs -/

/-- The `std::io::ErrorKind` values relevant to the crate (the classifier
only inspects the kind, so a representative finite set suffices; `other`
stands for any unrecognized kind). -/
inductive ErrorKind where
  | notFound
  | permissionDenied
  | connectionRefused
  | connectionReset
  | connectionAborted
  | notConnected
  | addrInUse
  | addrNotAvailable
  | brokenPipe
  | alreadyExists
  | wouldBlock
  | invalidInput
  | invalidData
  | timedOut
  | writeZero
  | interrupted
  | unexpectedEof
  | other
deriving DecidableEq

/-- `std::io::Error`, restricted to the two observations the crate makes:
`kind()` and `raw_os_error()`. -/
structure IOError where
  kind : ErrorKind
  raw_os_error : Option Int
deriving DecidableEq

/-- `is_transient_error` from `error.rs`:
`e.kind() == ConnectionRefused || e.kind() == ConnectionAborted ||
 e.kind() == ConnectionReset`. -/
def is_transient_error (e : IOError) : Bool :=
  e.kind == ErrorKind.connectionRefused ||
  e.kind == ErrorKind.connectionAborted ||
  e.kind == ErrorKind.connectionReset

/-- The private `KnownError` enum from `error.rs`. -/
inductive KnownError where
  | enfile
  | emfile
deriving DecidableEq

/-- `ErrorHint` from `error.rs`. -/
structure ErrorHint where
  error : Option KnownError
deriving DecidableEq

/-- `error_hint` from `error.rs`, unix branch of the `error_match!`
macro: raw OS error 24 is EMFILE, 23 is ENFILE, anything else is
unrecognized. -/
def error_hint (e : IOError) : ErrorHint :=
  match e.raw_os_error with
  | some 24 => ⟨some KnownError.emfile⟩
  | some 23 => ⟨some KnownError.enfile⟩
  | _ => ⟨none⟩

/-- `ErrorHint::hint_text`. -/
def ErrorHint.hint_text (h : ErrorHint) : String :=
  match h.error with
  | none => ""
  | some KnownError.emfile => "Increase per-process open file limit"
  | some KnownError.enfile => "Increase system open file limit"

/-- `ErrorHint::link_hash`. -/
def ErrorHint.link_hash (h : ErrorHint) : String :=
  match h.error with
  | none => ""
  | some KnownError.emfile => "EMFILE"
  | some KnownError.enfile => "ENFILE"

/-- `ErrorHint::default_link_base`. -/
def ErrorHint.default_link_base (_ : ErrorHint) : String :=
  "https://big.ly/async-err"

/-- `ErrorHint::is_empty`, exactly as written in the source:
`self.error.is_some()`. -/
def ErrorHint.is_empty (h : ErrorHint) : Bool :=
  h.error.isSome

/-- The `Display` implementation of `ErrorHint`: empty output when
`error` is `None`, otherwise `"{hint_text} {default_link_base}#{link_hash}"`. -/
def ErrorHint.display (h : ErrorHint) : String :=
  if h.error.isNone then ""
  else h.hint_text ++ " " ++ h.default_link_base ++ "#" ++ h.link_hash

/-! ## backpressure.rs — shared counter state and the token lifecycle -/

/-- `usize` modulus: the crate runs on 64-bit targets, where atomic
`fetch_add`/`fetch_sub` wrap modulo `2 ^ 64`. -/
def W : Nat := 2 ^ 64

/-- A task waker, identified by an opaque id. -/
abbrev Waker := Nat

/-- The shared `Inner` state from `backpressure.rs`: the `active` and
`limit` atomics and the `task: Mutex<Option<Waker>>` wait slot.  The
transient "who holds the mutex right now" information is not part of the
state; it is an input (`lockBusy`) to each operation that tries the lock. -/
structure Inner where
  active : Nat
  limit : Nat
  task : Option Waker
deriving DecidableEq

/-- `backpressure::new(initial_limit)`: `active = 0`, `limit =
initial_limit`, empty wait slot. -/
def Inner.new (initial_limit : Nat) : Inner :=
  { active := 0, limit := initial_limit, task := none }

/-- `Sender::token`: `self.inner.active.fetch_add(1, SeqCst)`; nothing
else is touched. -/
def Sender.token (s : Inner) : Inner :=
  { s with active := (s.active + 1) % W }

/-- `Receiver::token` (used by the stream adapters): the same
`fetch_add(1, SeqCst)` as `Sender::token`. -/
def Receiver.token (s : Inner) : Inner :=
  { s with active := (s.active + 1) % W }

/-- Outcome of an operation that may try to wake the parked waiter:
the post state, whether the wake branch was entered (a wake was
attempted), and which waker (if any) was actually taken from the slot
and woken. -/
structure WakeOutcome where
  state : Inner
  wakeAttempted : Bool
  woken : Option Waker
deriving DecidableEq

/-- `Drop for Token`: `old_ref = active.fetch_sub(1, SeqCst)`;
`limit = limit.load(SeqCst)`; if `old_ref == limit` then `try_lock` the
wait slot — on success `guard.take().map(|w| w.wake())`, on contention
(`lockBusy`) skip.  In every other case the slot is untouched. -/
def Token.drop (s : Inner) (lockBusy : Bool) : WakeOutcome :=
  let old_ref := s.active
  let active' := (s.active + (W - 1)) % W
  if old_ref = s.limit then
    if lockBusy then ⟨{ s with active := active' }, true, none⟩
    else ⟨{ s with active := active', task := none }, true, s.task⟩
  else ⟨{ s with active := active' }, false, none⟩

/-- `Sender::set_limit(new_limit)`: `old_limit = limit.swap(new_limit,
SeqCst)`; if `old_limit < new_limit` then `try_lock` the wait slot — on
success `guard.take().map(|w| w.wake())`, on contention skip. -/
def Sender.set_limit (s : Inner) (new_limit : Nat) (lockBusy : Bool) : WakeOutcome :=
  let old_limit := s.limit
  if old_limit < new_limit then
    if lockBusy then ⟨{ s with limit := new_limit }, true, none⟩
    else ⟨{ s with limit := new_limit, task := none }, true, s.task⟩
  else ⟨{ s with limit := new_limit }, false, none⟩

/-- `Sender::get_active_tokens`: `active.load(Relaxed)`. -/
def Sender.get_active_tokens (s : Inner) : Nat :=
  s.active

/-! ## backpressure.rs — `Receiver::poll` (the capacity gate)

`Receiver::poll` is a loop; each iteration loads `active` and `limit`
and, when `active < limit` fails, tries the wait-slot lock.  Because the
loads and the lock can be raced by concurrent parties, one poll is
modelled over a trace of per-iteration observations: the values the two
loads return and whether the slot lock is contended at the `try_lock`. -/

/-- One loop iteration's observations inside `Receiver::poll`: the
loaded `active` and `limit` and whether `task.try_lock()` would return
`WouldBlock`. -/
structure Obs where
  active : Nat
  limit : Nat
  lockBusy : Bool
deriving DecidableEq

/-- Result of one call to `Receiver::poll` with waker `w`:
`Poll::Ready(())` or `Poll::Pending` after storing `w` in the wait slot. -/
inductive PollOut where
  | ready (u : Unit)
  | pending (registered : Waker)
deriving DecidableEq

/-- `Receiver::poll` over an observation trace: each iteration loads
`active`/`limit`; `active < limit` breaks out with `Ready(())`;
otherwise `try_lock` — `WouldBlock` retries the whole loop on the next
observation, success stores the waker and returns `Pending`.  `none`
means the trace ran out while the loop was still retrying. -/
def Receiver.poll (w : Waker) : List Obs → Option PollOut
  | [] => none
  | o :: rest =>
    if o.active < o.limit then some (PollOut.ready ())
    else if o.lockBusy then Receiver.poll w rest
    else some (PollOut.pending w)

/-- `HasCapacity::poll` (the future returned by `has_capacity`) just
delegates to `Receiver::poll`: `self.recv.poll(cx)`. -/
def HasCapacity.poll (w : Waker) (obs : List Obs) : Option PollOut :=
  Receiver.poll w obs

/-- An observation is decisive when the loop stops at it: either the
loaded values satisfy `active < limit`, or the slot lock is free so the
waker gets registered. -/
def Obs.decisive (o : Obs) : Bool :=
  decide (o.active < o.limit) || !o.lockBusy

/-! ## sleep.rs — the `HandleErrors` retry adapter

A stream is modelled at the poll level: a source is a trace of poll
results, consumed one per `poll_next` call on the source.  The
`timeout` field (a boxed `sleep` future in the source) is modelled as
`Option Nat` holding the duration the timer was started with; whether a
stored timer has elapsed at a given poll is an oracle input
(`timerDone`).  A freshly created `sleep(d)` future polls `Ready`
immediately iff `d = 0`. -/

/-- One poll result of a stream (`Poll<Option<T>>`). -/
inductive SPoll (α : Type) where
  | pending
  | ready (v : Option α)
deriving DecidableEq

/-- The inner `loop` of `HandleErrors::poll_next` (`sleep.rs`), entered
with no timer in flight; `d` is `sleep_on_warning`.  Each iteration
polls the source (consuming one trace element): `Pending` and `Ready(None)`
propagate; `Ready(Some(Ok(v)))` returns `Ready(Some(v))`;
`Ready(Some(Err(e)))` with `is_transient_error(e)` continues the loop;
otherwise a `sleep(d)` timer is created and polled once — `Pending`
(i.e. `d ≠ 0`) stores it in `timeout` and returns `Pending`, `Ready`
continues the loop.  Returns (result, new `timeout`, remaining source). -/
def HandleErrors.loop {I : Type} (d : Nat) :
    List (SPoll (Except IOError I)) →
    SPoll I × Option Nat × List (SPoll (Except IOError I))
  | [] => (SPoll.pending, none, [])
  | h :: rest =>
    match h with
    | SPoll.pending => (SPoll.pending, none, rest)
    | SPoll.ready none => (SPoll.ready none, none, rest)
    | SPoll.ready (some (Except.ok v)) => (SPoll.ready (some v), none, rest)
    | SPoll.ready (some (Except.error e)) =>
      if is_transient_error e then HandleErrors.loop d rest
      else if d = 0 then HandleErrors.loop d rest
      else (SPoll.pending, some d, rest)

/-- `HandleErrors::poll_next` (`sleep.rs`): if a timer is in flight,
poll it first — still `Pending` returns `Pending` with everything
untouched (the source is not polled); elapsed clears `timeout` and
enters the drain loop.  With no timer it enters the loop directly. -/
def HandleErrors.poll_next {I : Type} (d : Nat) (timeout : Option Nat)
    (timerDone : Bool) (src : List (SPoll (Except IOError I))) :
    SPoll I × Option Nat × List (SPoll (Except IOError I)) :=
  match timeout with
  | some t =>
    if timerDone then HandleErrors.loop d src
    else (SPoll.pending, some t, src)
  | none => HandleErrors.loop d src

/-! ## log.rs — the `LogWarnings` combinator -/

/-- One step of `LogWarnings::poll_next` (`log.rs`) given the inner
stream's poll result: the result is passed through unchanged; when it is
`Ready(Some(Err(e)))` with `!is_transient_error(e)` the logger callback
is invoked with `e` (modelled by appending `e` to the log). -/
def LogWarnings.pollOne {I : Type} (res : SPoll (Except IOError I))
    (logged : List IOError) : SPoll (Except IOError I) × List IOError :=
  match res with
  | SPoll.ready (some (Except.error e)) =>
    if is_transient_error e then (res, logged) else (res, logged ++ [e])
  | _ => (res, logged)

/-! ## Composition: `HandleErrors` over `LogWarnings` over a source

The concrete pipeline of the spec scenario:
`source.log_warnings(logger).handle_errors(d)`.  The inner stream of the
`HandleErrors` loop is the `LogWarnings` combinator, whose own inner
stream is the source trace. -/

/-- The `HandleErrors::poll_next` drain loop with `LogWarnings` as the
inner stream: each source poll goes through `LogWarnings.pollOne`
(which may invoke the logger) before `HandleErrors` dispatches on it.
Returns (result, new `timeout`, remaining source, log). -/
def HandleErrorsLW.loop {I : Type} (d : Nat) :
    List (SPoll (Except IOError I)) → List IOError →
    SPoll I × Option Nat × List (SPoll (Except IOError I)) × List IOError
  | [], logged => (SPoll.pending, none, [], logged)
  | h :: rest, logged =>
    let pl := LogWarnings.pollOne h logged
    match pl.1 with
    | SPoll.pending => (SPoll.pending, none, rest, pl.2)
    | SPoll.ready none => (SPoll.ready none, none, rest, pl.2)
    | SPoll.ready (some (Except.ok v)) => (SPoll.ready (some v), none, rest, pl.2)
    | SPoll.ready (some (Except.error e)) =>
      if is_transient_error e then HandleErrorsLW.loop d rest pl.2
      else if d = 0 then HandleErrorsLW.loop d rest pl.2
      else (SPoll.pending, some d, rest, pl.2)

/-- `HandleErrors::poll_next` over the composed pipeline: same timer
handling as `HandleErrors.poll_next`, drain loop `HandleErrorsLW.loop`. -/
def HandleErrorsLW.poll_next {I : Type} (d : Nat) (timeout : Option Nat)
    (timerDone : Bool) (src : List (SPoll (Except IOError I)))
    (logged : List IOError) :
    SPoll I × Option Nat × List (SPoll (Except IOError I)) × List IOError :=
  match timeout with
  | some t =>
    if timerDone then HandleErrorsLW.loop d src logged
    else (SPoll.pending, some t, src, logged)
  | none => HandleErrorsLW.loop d src logged

/-- Observable events of driving the composed adapter: an emitted item,
or the executor waiting out an in-flight cool-down timer of duration `t`. -/
inductive Event (I : Type) where
  | emit (v : I)
  | wait (t : Nat)
deriving DecidableEq

/-- Drive the composed adapter to completion (with `fuel` bounding the
number of polls).  When a timer is in flight the executor waits for it
(recorded as `Event.wait t`) and re-polls with the timer elapsed;
otherwise it re-polls directly.  Stops on `Ready(None)` (stream ended)
or on `Pending` with no timer (source would block). -/
def runLW {I : Type} (d : Nat) :
    Nat → Option Nat → List (SPoll (Except IOError I)) → List IOError →
    List (Event I) × List IOError
  | 0, _, _, logged => ([], logged)
  | fuel + 1, timeout, src, logged =>
    let evs0 : List (Event I) :=
      match timeout with
      | some t => [Event.wait t]
      | none => []
    match HandleErrorsLW.poll_next d timeout timeout.isSome src logged with
    | (SPoll.ready (some v), to2, rest, lg) =>
      let r := runLW d fuel to2 rest lg
      (evs0 ++ Event.emit v :: r.1, r.2)
    | (SPoll.ready none, _, _, lg) => (evs0, lg)
    | (SPoll.pending, some t2, rest, lg) =>
      let r := runLW d fuel (some t2) rest lg
      (evs0 ++ r.1, r.2)
    | (SPoll.pending, none, _, lg) => (evs0, lg)

/-- A transient error: `accept()` returning `ConnectionReset`. -/
def transientErr : IOError := ⟨ErrorKind.connectionReset, none⟩

/-- A non-transient error: EMFILE (raw OS error 24), kind unrecognized. -/
def exhaustionErr : IOError := ⟨ErrorKind.other, some 24⟩

/-- The spec's concrete scenario source:
`[Ok(1), Err(transient), Ok(2), Err(nonTransient), Ok(3)]`, then end of
stream. -/
def c7src : List (SPoll (Except IOError Nat)) :=
  [SPoll.ready (some (Except.ok 1)),
   SPoll.ready (some (Except.error transientErr)),
   SPoll.ready (some (Except.ok 2)),
   SPoll.ready (some (Except.error exhaustionErr)),
   SPoll.ready (some (Except.ok 3)),
   SPoll.ready none]

/-! ## Interleaving semantics for `Receiver::poll` vs `Token::drop`

To settle the wakeup-protocol claim the two code paths are broken into
their atomic actions, exactly as the source orders them, and executed
under an explicit schedule.  The consumer runs one call of
`Receiver::poll`; the dropper runs one `Token::drop`. -/

/-- Program counter of the consumer running `Receiver::poll`:
load `active`; load `limit`; compare; `try_lock` (retrying the loop on
`WouldBlock`); store the waker and release the lock, returning
`Poll::Pending` — or break out with `Poll::Ready`. -/
inductive CPc where
  | readActive
  | readLimit (a : Nat)
  | checkVals (a l : Nat)
  | tryLock
  | storeWaker
  | returnedPending
  | returnedReady
deriving DecidableEq

/-- Program counter of the dropper running `Token::drop`:
`fetch_sub(1)`; load `limit`; compare the pre-decrement value with it;
`try_lock` (skipping on `WouldBlock`); `guard.take().map(wake)` and
release. -/
inductive DPc where
  | fetchSub
  | loadLimit (old : Nat)
  | checkWake (old l : Nat)
  | tryLock
  | takeAndWake
  | done
deriving DecidableEq

/-- Global state of the two-thread interleaving: the shared `Inner`
fields, whether the wait-slot mutex is currently held, the log of
`wake()` calls, and both program counters. -/
structure RaceState where
  active : Nat
  limit : Nat
  slot : Option Waker
  lockHeld : Bool
  wakes : List Waker
  cpc : CPc
  dpc : DPc
deriving DecidableEq

/-- One atomic step of the consumer (`Receiver::poll` with waker `w`),
following `backpressure.rs` lines 153–180. -/
def consumerStep (w : Waker) (s : RaceState) : RaceState :=
  match s.cpc with
  | CPc.readActive => { s with cpc := CPc.readLimit s.active }
  | CPc.readLimit a => { s with cpc := CPc.checkVals a s.limit }
  | CPc.checkVals a l =>
    if a < l then { s with cpc := CPc.returnedReady }
    else { s with cpc := CPc.tryLock }
  | CPc.tryLock =>
    if s.lockHeld then { s with cpc := CPc.readActive }
    else { s with lockHeld := true, cpc := CPc.storeWaker }
  | CPc.storeWaker =>
    { s with slot := some w, lockHeld := false, cpc := CPc.returnedPending }
  | CPc.returnedPending => s
  | CPc.returnedReady => s

/-- One atomic step of the dropper (`Drop for Token`), following
`backpressure.rs` lines 183–205. -/
def dropperStep (s : RaceState) : RaceState :=
  match s.dpc with
  | DPc.fetchSub =>
    { s with active := (s.active + (W - 1)) % W, dpc := DPc.loadLimit s.active }
  | DPc.loadLimit old => { s with dpc := DPc.checkWake old s.limit }
  | DPc.checkWake old l =>
    if old = l then { s with dpc := DPc.tryLock }
    else { s with dpc := DPc.done }
  | DPc.tryLock =>
    if s.lockHeld then { s with dpc := DPc.done }
    else { s with lockHeld := true, dpc := DPc.takeAndWake }
  | DPc.takeAndWake =>
    match s.slot with
    | some wk =>
      { s with slot := none, wakes := s.wakes ++ [wk], lockHeld := false,
               dpc := DPc.done }
    | none => { s with lockHeld := false, dpc := DPc.done }
  | DPc.done => s

/-- Thread identifiers of the interleaving. -/
inductive Tid where
  | consumer
  | dropper
deriving DecidableEq

/-- Dispatch one scheduled step. -/
def raceStep (w : Waker) (s : RaceState) : Tid → RaceState
  | Tid.consumer => consumerStep w s
  | Tid.dropper => dropperStep s

/-- Run a schedule from a state. -/
def raceRun (w : Waker) (sched : List Tid) (s : RaceState) : RaceState :=
  sched.foldl (raceStep w) s

/-- Initial state of the racy scenario: one live token (`active = 1`),
`limit = 1`, empty wait slot; the consumer is about to poll the gate
while the token's owner concurrently drops it. -/
def raceInit : RaceState :=
  { active := 1, limit := 1, slot := none, lockHeld := false, wakes := [],
    cpc := CPc.readActive, dpc := DPc.fetchSub }

/-- The interleaving that loses the wakeup: the consumer loads
`active = 1`, `limit = 1` and decides to park; before it acquires the
wait-slot lock, the drop runs to completion (decrementing `active` to 0
and finding the slot empty, so waking nobody); the consumer then
registers its waker and returns `Pending`. -/
def raceSched : List Tid :=
  [Tid.consumer, Tid.consumer, Tid.consumer,
   Tid.dropper, Tid.dropper, Tid.dropper, Tid.dropper, Tid.dropper,
   Tid.consumer, Tid.consumer]

/-! ## Helper lemmas -/

theorem W_pos : 0 < W := by norm_num [W]

/-- Wrapping `fetch_sub(1)` on a positive in-range counter is an exact
decrement. -/
theorem decr_wrap (a : Nat) (h0 : 0 < a) (hW : a < W) :
    (a + (W - 1)) % W = a - 1 := by
  have h1 : a + (W - 1) = (a - 1) + W := by have hp := W_pos; omega
  rw [h1, Nat.add_mod_right, Nat.mod_eq_of_lt]
  omega

/-- A wrapping increment followed by a wrapping decrement restores an
in-range counter. -/
theorem round_wrap (a : Nat) (hW : a < W) :
    ((a + 1) % W + (W - 1)) % W = a := by
  rcases Nat.lt_or_ge (a + 1) W with h | h
  · rw [Nat.mod_eq_of_lt h]
    have h1 : (a + 1) + (W - 1) = a + W := by have hp := W_pos; omega
    rw [h1, Nat.add_mod_right, Nat.mod_eq_of_lt hW]
  · have ha : a + 1 = W := by omega
    have hp := W_pos
    rw [ha, Nat.mod_self, Nat.zero_add, Nat.mod_eq_of_lt] <;> omega

/-! ## Claim theorems -/

/-- C1: the wakeup protocol is NOT race-free.  In the interleaving
`raceSched` from `raceInit` (one live token, `limit = 1`; the consumer
polls the gate while the token is concurrently dropped), the consumer
ends parked (`Poll::Pending`, waker 7 registered in the wait slot) even
though the drop has already made `active < limit` true; no `wake()` was
ever called, and the final state is quiescent — neither thread has a
step left that could change it — so the parked waiter is never woken.
This refutes the claim that a consumer is only left parked after
confirming `active < limit` is false under the registration critical
section: `Receiver::poll` checks the condition before taking the
wait-slot lock and never re-checks it after. -/
theorem c1_missed_wakeup_race :
    (raceRun 7 raceSched raceInit).cpc = CPc.returnedPending ∧
    (raceRun 7 raceSched raceInit).slot = some 7 ∧
    (raceRun 7 raceSched raceInit).active < (raceRun 7 raceSched raceInit).limit ∧
    (raceRun 7 raceSched raceInit).wakes = [] ∧
    (raceRun 7 raceSched raceInit).dpc = DPc.done ∧
    raceStep 7 (raceRun 7 raceSched raceInit) Tid.consumer =
      raceRun 7 raceSched raceInit ∧
    raceStep 7 (raceRun 7 raceSched raceInit) Tid.dropper =
      raceRun 7 raceSched raceInit := by
  decide

/-- C2: one call of the capacity gate's poll (`HasCapacity::poll`,
delegating to `Receiver::poll`) stops at the first decisive loop
iteration — the first whose loaded values satisfy `active < limit` or
whose `try_lock` succeeds: it returns `Ready(())` exactly when those
read values satisfy `active < limit`, and otherwise registers the
task's waker and returns `Pending`; contended iterations retry the
whole read-and-check; if every iteration is contended the loop keeps
retrying (no result); and a `Ready` result carries only the unit value. -/
theorem c2_capacity_gate_poll :
    (∀ (w : Waker) (obs : List Obs) (o : Obs),
      obs.find? Obs.decisive = some o →
      HasCapacity.poll w obs =
        some (if o.active < o.limit then PollOut.ready () else PollOut.pending w)) ∧
    (∀ (w : Waker) (obs : List Obs),
      obs.find? Obs.decisive = none → HasCapacity.poll w obs = none) ∧
    (∀ (w : Waker) (obs : List Obs) (u : Unit),
      HasCapacity.poll w obs = some (PollOut.ready u) → u = ()) := by
  refine ⟨?_, ?_, ?_⟩
  · intro w obs
    induction obs with
    | nil => intro o h; simp at h
    | cons head tail ih =>
      intro o h
      by_cases hlt : head.active < head.limit
      · have hdec : Obs.decisive head = true := by simp [Obs.decisive, hlt]
        rw [List.find?_cons_of_pos _ hdec] at h
        injection h with h
        subst h
        simp [HasCapacity.poll, Receiver.poll, hlt]
      · by_cases hbusy : head.lockBusy = true
        · have hdec : ¬ (Obs.decisive head = true) := by
            simp [Obs.decisive, hlt, hbusy]
          rw [List.find?_cons_of_neg _ hdec] at h
          have h2 := ih o h
          simpa [HasCapacity.poll, Receiver.poll, hlt, hbusy] using h2
        · have hdec : Obs.decisive head = true := by
            simp [Obs.decisive, hbusy]
          rw [List.find?_cons_of_pos _ hdec] at h
          injection h with h
          subst h
          simp [HasCapacity.poll, Receiver.poll, hlt, hbusy]
  · intro w obs
    induction obs with
    | nil => intro _; rfl
    | cons head tail ih =>
      intro h
      by_cases hdec : Obs.decisive head = true
      · rw [List.find?_cons_of_pos _ hdec] at h
        exact absurd h (by simp)
      · rw [List.find?_cons_of_neg _ hdec] at h
        have h2 := ih h
        have hlt : ¬ head.active < head.limit := by
          intro hc
          exact hdec (by simp [Obs.decisive, hc])
        have hbusy : head.lockBusy = true := by
          by_contra hb
          exact hdec (by simp [Obs.decisive, hb])
        simpa [HasCapacity.poll, Receiver.poll, hlt, hbusy] using h2
  · intro w obs u _
    cases u
    rfl

/-- C2 witness: concrete polls — a contended blocked iteration followed
by a free-capacity read resolves `Ready(())`; a single uncontended
blocked read parks the waker. -/
theorem c2_capacity_gate_poll_witness :
    HasCapacity.poll 7 [⟨2, 1, true⟩, ⟨0, 1, false⟩] =
      some (PollOut.ready ()) ∧
    HasCapacity.poll 9 [⟨1, 1, false⟩] = some (PollOut.pending 9) := by
  constructor
  · have h := c2_capacity_gate_poll.1 7 [⟨2, 1, true⟩, ⟨0, 1, false⟩]
      ⟨0, 1, false⟩ (by decide)
    simpa using h
  · have h := c2_capacity_gate_poll.1 9 [⟨1, 1, false⟩] ⟨1, 1, false⟩ (by decide)
    simpa using h

/-- C3: dropping a `Token` decrements `active` by exactly one and
leaves `limit` unchanged; the wake branch is entered iff the
pre-decrement `active` equals the loaded `limit`; in every other case
the wait slot is untouched and nobody is woken.  The range hypotheses
hold of every reachable state (each live token holds an `Arc` clone, so
`active` cannot approach `2 ^ 64`). -/
theorem c3_token_drop (s : Inner) (lockBusy : Bool)
    (h0 : 0 < s.active) (hW : s.active < W) :
    (Token.drop s lockBusy).state.active = s.active - 1 ∧
    (Token.drop s lockBusy).state.limit = s.limit ∧
    ((Token.drop s lockBusy).wakeAttempted = true ↔ s.active = s.limit) ∧
    (s.active ≠ s.limit →
      (Token.drop s lockBusy).state.task = s.task ∧
      (Token.drop s lockBusy).woken = none) := by
  unfold Token.drop
  have hd := decr_wrap s.active h0 hW
  by_cases h : s.active = s.limit
  · rw [h] at hd
    cases lockBusy <;> simp [h, hd]
  · cases lockBusy <;> simp [h, hd]

/-- C3 witness: dropping at the limit (`active = limit = 2`) attempts a
wake; the hypotheses are discharged at the concrete state. -/
theorem c3_token_drop_witness :
    0 < (⟨2, 2, some 5⟩ : Inner).active ∧
    (⟨2, 2, some 5⟩ : Inner).active < W ∧
    (Token.drop ⟨2, 2, some 5⟩ false).state.active = 1 ∧
    (Token.drop ⟨2, 2, some 5⟩ false).wakeAttempted = true ∧
    (Token.drop ⟨2, 2, some 5⟩ false).woken = some 5 := by
  have h := c3_token_drop ⟨2, 2, some 5⟩ false (by decide) (by decide)
  refine ⟨by decide, by decide, ?_, ?_, by decide⟩
  · simpa using h.1
  · exact h.2.2.1.mpr rfl

/-- C4: `set_limit(N)` replaces `limit` by `N` and leaves `active`
unchanged (no token is invalidated, no capacity revoked from current
holders); the wake branch is entered iff `N` is strictly larger than
the old limit, and otherwise the wait slot is untouched and nobody is
woken. -/
theorem c4_set_limit (s : Inner) (new_limit : Nat) (lockBusy : Bool) :
    (Sender.set_limit s new_limit lockBusy).state.limit = new_limit ∧
    (Sender.set_limit s new_limit lockBusy).state.active = s.active ∧
    ((Sender.set_limit s new_limit lockBusy).wakeAttempted = true ↔
      s.limit < new_limit) ∧
    (¬ s.limit < new_limit →
      (Sender.set_limit s new_limit lockBusy).state.task = s.task ∧
      (Sender.set_limit s new_limit lockBusy).woken = none) := by
  unfold Sender.set_limit
  by_cases h : s.limit < new_limit <;> cases lockBusy <;> simp [h]

/-- C4 witness: lowering the limit from 5 to 4 keeps `active` and the
parked waiter untouched and wakes nobody. -/
theorem c4_set_limit_witness :
    (Sender.set_limit ⟨3, 5, some 7⟩ 4 false).state.limit = 4 ∧
    (Sender.set_limit ⟨3, 5, some 7⟩ 4 false).state.active = 3 ∧
    (Sender.set_limit ⟨3, 5, some 7⟩ 4 false).wakeAttempted = false ∧
    (Sender.set_limit ⟨3, 5, some 7⟩ 4 false).state.task = some 7 ∧
    (Sender.set_limit ⟨3, 5, some 7⟩ 4 false).woken = none := by
  have h := c4_set_limit ⟨3, 5, some 7⟩ 4 false
  refine ⟨h.1, h.2.1, ?_, (h.2.2.2 (by decide)).1, (h.2.2.2 (by decide)).2⟩
  have h3 := h.2.2.1
  revert h3
  decide

/-- C5: token creation (`Sender::token`, and the identically
implemented `Receiver::token` used by the stream adapters) increments
`active` by exactly one and changes nothing else — `limit` and the
wait slot are untouched, so creation never wakes anyone; it is total
(succeeds for every state, however `active` compares to `limit`).  The
range hypothesis holds of every reachable state. -/
theorem c5_token_creation (s : Inner) (h : s.active + 1 < W) :
    (Sender.token s).active = s.active + 1 ∧
    (Sender.token s).limit = s.limit ∧
    (Sender.token s).task = s.task ∧
    Receiver.token s = Sender.token s := by
  unfold Sender.token Receiver.token
  simp [Nat.mod_eq_of_lt h]

/-- C5 witness: creating a token in a saturated state (`active = 10`,
`limit = 3`) still succeeds and only increments `active`. -/
theorem c5_token_creation_witness :
    (⟨10, 3, some 7⟩ : Inner).active + 1 < W ∧
    (Sender.token ⟨10, 3, some 7⟩).active = 11 ∧
    (Sender.token ⟨10, 3, some 7⟩).limit = 3 ∧
    (Sender.token ⟨10, 3, some 7⟩).task = some 7 ∧
    Receiver.token ⟨10, 3, some 7⟩ = Sender.token ⟨10, 3, some 7⟩ := by
  have h := c5_token_creation ⟨10, 3, some 7⟩ (by decide)
  exact ⟨by decide, by simpa using h.1, h.2.1, h.2.2.1, h.2.2.2⟩

/-- C6: the `HandleErrors` adapter implements the two-state machine:
draining (no timer), a pulled `Ok(v)` is emitted as `Ready(Some(v))`;
a transient error is discarded and the next element pulled immediately
(the poll continues exactly as a fresh draining poll on the rest, no
timer inserted); a non-transient error starts a timer of the configured
duration `d` (stored in `timeout`) and returns `Pending` (suspended);
while suspended with the timer not yet elapsed the adapter returns
`Pending` without touching the source; when the timer elapses the poll
proceeds exactly as a draining poll (resumes pulling). -/
theorem c6_handle_errors_machine :
    (∀ (I : Type) (d : Nat) (t : Bool) (v : I)
        (rest : List (SPoll (Except IOError I))),
      HandleErrors.poll_next d none t
          (SPoll.ready (some (Except.ok v)) :: rest) =
        (SPoll.ready (some v), none, rest)) ∧
    (∀ (I : Type) (d : Nat) (t : Bool) (e : IOError)
        (rest : List (SPoll (Except IOError I))),
      is_transient_error e = true →
      HandleErrors.poll_next d none t
          (SPoll.ready (some (Except.error e)) :: rest) =
        HandleErrors.poll_next d none true rest) ∧
    (∀ (I : Type) (d : Nat) (t : Bool) (e : IOError)
        (rest : List (SPoll (Except IOError I))),
      is_transient_error e = false → d ≠ 0 →
      HandleErrors.poll_next d none t
          (SPoll.ready (some (Except.error e)) :: rest) =
        (SPoll.pending, some d, rest)) ∧
    (∀ (I : Type) (d t' : Nat) (src : List (SPoll (Except IOError I))),
      HandleErrors.poll_next d (some t') false src =
        (SPoll.pending, some t', src)) ∧
    (∀ (I : Type) (d t' : Nat) (src : List (SPoll (Except IOError I))),
      HandleErrors.poll_next d (some t') true src =
        HandleErrors.poll_next d none true src) := by
  refine ⟨?_, ?_, ?_, ?_, ?_⟩
  · intro I d t v rest; rfl
  · intro I d t e rest h
    simp [HandleErrors.poll_next, HandleErrors.loop, h]
  · intro I d t e rest h hd
    simp [HandleErrors.poll_next, HandleErrors.loop, h, hd]
  · intro I d t' src; rfl
  · intro I d t' src; rfl

/-- C6 witness: the five transitions at concrete inputs (duration 5,
item type `Nat`). -/
theorem c6_handle_errors_machine_witness :
    (HandleErrors.poll_next 5 none false
        [SPoll.ready (some (Except.ok (42 : Nat)))] =
      (SPoll.ready (some 42), none, [])) ∧
    (HandleErrors.poll_next 5 none false
        [SPoll.ready (some (Except.error transientErr)),
         SPoll.ready (some (Except.ok (1 : Nat)))] =
      HandleErrors.poll_next 5 none true
        [SPoll.ready (some (Except.ok 1))]) ∧
    (HandleErrors.poll_next 5 none false
        [SPoll.ready (some (Except.error exhaustionErr)),
         SPoll.ready (some (Except.ok (1 : Nat)))] =
      (SPoll.pending, some 5, [SPoll.ready (some (Except.ok 1))])) ∧
    (HandleErrors.poll_next 5 (some 5) false
        [SPoll.ready (some (Except.ok (1 : Nat)))] =
      (SPoll.pending, some 5, [SPoll.ready (some (Except.ok 1))])) ∧
    (HandleErrors.poll_next 5 (some 5) true
        [SPoll.ready (some (Except.ok (1 : Nat)))] =
      HandleErrors.poll_next 5 none true
        [SPoll.ready (some (Except.ok 1))]) :=
  ⟨c6_handle_errors_machine.1 Nat 5 false 42 [],
   c6_handle_errors_machine.2.1 Nat 5 false transientErr _ (by decide),
   c6_handle_errors_machine.2.2.1 Nat 5 false exhaustionErr _ (by decide) (by decide),
   c6_handle_errors_machine.2.2.2.1 Nat 5 5 _,
   c6_handle_errors_machine.2.2.2.2 Nat 5 5 _⟩

/-- C7: driving `[Ok(1), Err(transient), Ok(2), Err(nonTransient),
Ok(3)]` through `LogWarnings` composed with `HandleErrors` (cool-down
`d ≠ 0`) emits exactly `1, 2, 3`, with exactly one executor wait — of
the configured duration, between the emission of 2 and of 3 — and the
logger is invoked exactly once, with the non-transient error only. -/
theorem c7_pipeline_scenario (d : Nat) (hd : d ≠ 0) :
    runLW d 7 none c7src [] =
      ([Event.emit 1, Event.emit 2, Event.wait d, Event.emit 3],
       [exhaustionErr]) := by
  match d with
  | 0 => exact absurd rfl hd
  | Nat.succ k => rfl

/-- C7 witness: the scenario at cool-down duration 100. -/
theorem c7_pipeline_scenario_witness :
    (100 : Nat) ≠ 0 ∧
    runLW 100 7 none c7src [] =
      ([Event.emit 1, Event.emit 2, Event.wait 100, Event.emit 3],
       [exhaustionErr]) :=
  ⟨by decide, c7_pipeline_scenario 100 (by decide)⟩

/-- C8: `is_transient_error` returns `true` exactly on the kinds
`ConnectionRefused`, `ConnectionAborted`, `ConnectionReset`; every
other kind — including resource exhaustion and anything unrecognized —
is classified non-transient. -/
theorem c8_transient_classifier (e : IOError) :
    is_transient_error e = true ↔
      (e.kind = ErrorKind.connectionRefused ∨
       e.kind = ErrorKind.connectionAborted ∨
       e.kind = ErrorKind.connectionReset) := by
  cases e with
  | mk k r => cases k <;> simp [is_transient_error]

/-- C9: `ErrorHint::is_empty` is inverted with respect to its own
documentation and the rest of the hint object: for a recognized
resource-exhaustion code (EMFILE, raw OS error 24) `is_empty()` returns
`true` although the displayed hint, `hint_text` and `link_hash` are all
non-empty, and for an unrecognized error `is_empty()` returns `false`
although every rendering is the empty string. -/
theorem c9_error_hint_inverted :
    (error_hint ⟨ErrorKind.other, some 24⟩).is_empty = true ∧
    (error_hint ⟨ErrorKind.other, some 24⟩).display ≠ "" ∧
    (error_hint ⟨ErrorKind.other, some 24⟩).hint_text ≠ "" ∧
    (error_hint ⟨ErrorKind.other, some 24⟩).link_hash ≠ "" ∧
    (error_hint ⟨ErrorKind.other, none⟩).is_empty = false ∧
    (error_hint ⟨ErrorKind.other, none⟩).display = "" ∧
    (error_hint ⟨ErrorKind.other, none⟩).hint_text = "" ∧
    (error_hint ⟨ErrorKind.other, none⟩).link_hash = "" := by
  decide

/-- C10: creating a token and immediately dropping it restores `active`
to its pre-creation value (and leaves `limit` unchanged), and leaves no
waiter incorrectly parked: if the wait slot held a legitimately parked
waiter before (one registered while `active < limit` was false), then
any waiter left in the slot afterwards still has the blocking condition
true. -/
theorem c10_round_trip (s : Inner) (lockBusy : Bool) (hW : s.active < W)
    (hinv : ∀ wk, s.task = some wk → ¬ s.active < s.limit) :
    (Token.drop (Sender.token s) lockBusy).state.active = s.active ∧
    (Token.drop (Sender.token s) lockBusy).state.limit = s.limit ∧
    (∀ wk, (Token.drop (Sender.token s) lockBusy).state.task = some wk →
      ¬ (Token.drop (Sender.token s) lockBusy).state.active <
        (Token.drop (Sender.token s) lockBusy).state.limit) := by
  unfold Sender.token Token.drop
  have hr := round_wrap s.active hW
  by_cases h : (s.active + 1) % W = s.limit
  · rw [h] at hr
    cases lockBusy with
    | false => simp [h, hr]
    | true =>
      simp [h, hr]
      intro wk hwk
      exact Nat.le_of_not_lt (hinv wk hwk)
  · cases lockBusy <;>
      · simp [h, hr]
        intro wk hwk
        exact Nat.le_of_not_lt (hinv wk hwk)

/-- C10 witness: round trip from a saturated state (`active = limit =
1`) with a legitimately parked waiter: `active` returns to 1 and the
waiter left parked still has the blocking condition true. -/
theorem c10_round_trip_witness :
    (⟨1, 1, some 4⟩ : Inner).active < W ∧
    (Token.drop (Sender.token ⟨1, 1, some 4⟩) true).state.active = 1 ∧
    (Token.drop (Sender.token ⟨1, 1, some 4⟩) true).state.limit = 1 ∧
    (∀ wk, (Token.drop (Sender.token ⟨1, 1, some 4⟩) true).state.task = some wk →
      ¬ (Token.drop (Sender.token ⟨1, 1, some 4⟩) true).state.active <
        (Token.drop (Sender.token ⟨1, 1, some 4⟩) true).state.limit) := by
  have h := c10_round_trip ⟨1, 1, some 4⟩ true (by decide)
    (fun wk _ => by decide)
  exact ⟨by decide, by simpa using h.1, by simpa using h.2.1, h.2.2⟩

end AsyncListen
